import Mathlib

/-!
Shallow embedding of the SPBM hwmon driver (src/spbm.c) and proofs of the
specification claims about it.

Modelling conventions:
* Machine integers are `Nat`/`Int` with explicit `% 2^w` where the C code's
  widths matter.  `u32` register reads become `mem off % 2^32` where
  `mem : Nat → Nat` holds the current contents of the mapped region,
  indexed by region-relative byte offset (base + offset addressing is
  abstracted to region offsets).
* The C channel argument `int ch` is modelled as `Int`; the comparison
  `ch < N` in the source compares a signed `int` against the unsigned
  `size_t` result of `ARRAY_SIZE`, so `ch` is converted to `size_t`
  (64-bit, two's complement) before the comparison: `chInBounds` embeds
  exactly that converted comparison.
* `enum hwmon_sensor_types` is modelled by `SensorType` with the two
  constructors the driver tests for plus `other` covering every remaining
  enumerator; the per-type hwmon attribute enumerators the driver compares
  against are modelled by `HwmonAttr` the same way (the driver only ever
  tests equality against these named constants, each guarded by the
  matching type test, so this tagged model preserves the source's
  branching exactly).
* Error returns (`-EOPNOTSUPP`, `-ENODEV`) become dedicated constructors.
-/

namespace Spbm

/-- `#define SPBM_SIZE 0x1000` — size of the mapped telemetry region. -/
def SPBM_SIZE : Nat := 0x1000

/-- `#define SPBM_RES_IDX 1` — zero-based ordinal of the SPBM memory resource. -/
def SPBM_RES_IDX : Nat := 1

/-- `#define TE_SYS_TOTAL 0x300` — offset of the system-total power register. -/
def TE_SYS_TOTAL : Nat := 0x300

/-- `struct spbm_chan { u32 offset; const char *label; }`. -/
structure spbm_chan where
  offset : Nat
  label : String
deriving DecidableEq, Repr

/-- Dummy element for out-of-bounds `List.getD`; never reached under the
bounds guards the source performs before indexing. -/
def noChan : spbm_chan := ⟨0, ""⟩

/-- `static const struct spbm_chan pwr_chans[]` (src/spbm.c lines 85–109),
entry order and labels exactly as in the source. -/
def pwr_chans : List spbm_chan :=
  [ ⟨0x300, "sys_total"⟩
  , ⟨0x304, "soc_pkg"⟩
  , ⟨0x308, "cpu_gpu"⟩
  , ⟨0x30C, "cpu_p"⟩
  , ⟨0x310, "cpu_e"⟩
  , ⟨0x314, "vcore"⟩
  , ⟨0x318, "vddq"⟩
  , ⟨0x31C, "dc_input"⟩
  , ⟨0x324, "gpu_out"⟩
  , ⟨0x320, "gpc_out"⟩
  , ⟨0x32C, "gpu_in"⟩
  , ⟨0x328, "gpc_in"⟩
  , ⟨0x330, "sys_in"⟩
  , ⟨0x338, "prereg_in"⟩
  , ⟨0x334, "dla_in"⟩
  , ⟨0x33C, "dla_out"⟩
  , ⟨0x160, "pl1"⟩
  , ⟨0x164, "pl2"⟩
  , ⟨0x170, "syspl1"⟩
  , ⟨0x600, "budget_cpu"⟩
  , ⟨0x604, "budget_gpu"⟩
  , ⟨0x680, "budget_cpu_e"⟩
  , ⟨0x684, "budget_cpu_p"⟩ ]

/-- `#define N_PWR ARRAY_SIZE(pwr_chans)`. -/
def N_PWR : Nat := pwr_chans.length

/-- `static const struct spbm_chan nrg_chans[]` (src/spbm.c lines 112–118). -/
def nrg_chans : List spbm_chan :=
  [ ⟨0x344, "pkg"⟩
  , ⟨0x350, "cpu_e"⟩
  , ⟨0x35C, "cpu_p"⟩
  , ⟨0x368, "gpc"⟩
  , ⟨0x374, "gpm"⟩ ]

/-- `#define N_NRG ARRAY_SIZE(nrg_chans)`. -/
def N_NRG : Nat := nrg_chans.length

/-- `enum hwmon_sensor_types`: the driver branches only on `hwmon_power`
and `hwmon_energy`; `other n` stands for any remaining enumerator. -/
inductive SensorType where
  | power
  | energy
  | other (n : Nat)
deriving DecidableEq, Repr

/-- The hwmon attribute enumerators the driver compares `u32 attr` against,
tagged by their type namespace; `other n` stands for any other attribute
value. -/
inductive HwmonAttr where
  | power_input
  | power_label
  | energy_input
  | energy_label
  | other (n : Nat)
deriving DecidableEq, Repr

/-- `size_t` modulus: the unsigned 64-bit conversion applied to the signed
`int ch` when the source compares `ch < N_PWR` (`N_PWR` is `size_t`). -/
def SIZE_T_MOD : Nat := 2 ^ 64

/-- The source's bounds test `ch < N` with `ch : int` and `N : size_t`:
`ch` is converted to `size_t` (reduced mod `2^64`) and compared unsigned. -/
def chInBounds (ch : Int) (n : Nat) : Bool :=
  decide ((ch % (SIZE_T_MOD : Int)).toNat < n)

/-- The array index the source uses in `pwr_chans[ch]` once the bounds test
passed; expressed through the same `size_t` reduction (for every `int`-range
`ch` that passes the bounds test this equals `ch`). -/
def chIdx (ch : Int) : Nat := (ch % (SIZE_T_MOD : Int)).toNat

/-- `ioread32`: a single aligned 32-bit load from the mapped region at the
given offset; the result is a `u32`. -/
def ioread32 (mem : Nat → Nat) (off : Nat) : Nat := mem off % 2 ^ 32

/-- `*val = (long)raw * 1000; /* mW -> uW */` (src/spbm.c line 147): the
power unit conversion.  `long` is signed 64-bit on the target; for every
`u32` input the product is far below `2^63`, so the signed multiplication
never overflows and plain `Int` multiplication is its exact semantics. -/
def power_uW (raw : Nat) : Int := (raw : Int) * 1000

/-- `*val = (long)raw * 1000; /* mJ -> uJ */` (src/spbm.c line 152): the
energy unit conversion. -/
def energy_uJ (raw : Nat) : Int := (raw : Int) * 1000

/-- Signed 64-bit `long` bounds, used to state that converted values fit
the output type. -/
def LONG_MAX : Int := 2 ^ 63 - 1

/-- Lower `long` bound. -/
def LONG_MIN : Int := -(2 ^ 63)

/-- Result of `spbm_read`: `0` with an output value, or `-EOPNOTSUPP`. -/
inductive ReadResult where
  | ok (val : Int)
  | eopnotsupp
deriving DecidableEq, Repr

/-- Result of `spbm_read_string`: `0` with a label, or `-EOPNOTSUPP`. -/
inductive StringResult where
  | ok (s : String)
  | eopnotsupp
deriving DecidableEq, Repr

/-- `struct spbm_priv { void __iomem *base; }` — the only driver-held
per-binding state; the mapping handle is abstracted to a number. -/
structure spbm_priv where
  base : Nat
deriving DecidableEq, Repr

/-- The driver-held state a query can observe: the private data plus the
two channel tables (const globals in the source, carried here so that
their preservation is expressible). -/
structure DriverState where
  priv : spbm_priv
  pwr : List spbm_chan
  nrg : List spbm_chan
deriving DecidableEq, Repr

/-- The canonical state after a successful probe: private data holding the
mapping, and the two source tables. -/
def mkState (base : Nat) : DriverState := ⟨⟨base⟩, pwr_chans, nrg_chans⟩

/-- `spbm_visible` (src/spbm.c lines 127–137), state-passing form.  The C
body performs no store and no register read, so the translation returns
the state unchanged and an empty read log.  Result is the `umode_t`:
`0444` or `0`. -/
def spbm_visible_full (s : DriverState) (t : SensorType) (a : HwmonAttr)
    (ch : Int) : Nat × DriverState × List Nat :=
  if t = SensorType.power ∧ chInBounds ch s.pwr.length = true ∧
      (a = HwmonAttr.power_input ∨ a = HwmonAttr.power_label) then
    (0o444, s, [])
  else if t = SensorType.energy ∧ chInBounds ch s.nrg.length = true ∧
      (a = HwmonAttr.energy_input ∨ a = HwmonAttr.energy_label) then
    (0o444, s, [])
  else
    (0, s, [])

/-- `spbm_visible` applied at the canonical post-probe state. -/
def spbm_visible (t : SensorType) (a : HwmonAttr) (ch : Int) : Nat :=
  (spbm_visible_full (mkState 0) t a ch).1

/-- `spbm_read` (src/spbm.c lines 139–156), state-passing form over the
region contents `mem`.  The C body performs exactly one `ioread32` on a
successful branch and no store; the read log records the offsets read. -/
def spbm_read_full (s : DriverState) (mem : Nat → Nat) (t : SensorType)
    (a : HwmonAttr) (ch : Int) : ReadResult × DriverState × List Nat :=
  if t = SensorType.power ∧ a = HwmonAttr.power_input ∧
      chInBounds ch s.pwr.length = true then
    let off := (s.pwr.getD (chIdx ch) noChan).offset
    (ReadResult.ok (power_uW (ioread32 mem off)), s, [off])
  else if t = SensorType.energy ∧ a = HwmonAttr.energy_input ∧
      chInBounds ch s.nrg.length = true then
    let off := (s.nrg.getD (chIdx ch) noChan).offset
    (ReadResult.ok (energy_uJ (ioread32 mem off)), s, [off])
  else
    (ReadResult.eopnotsupp, s, [])

/-- `spbm_read` applied at the canonical post-probe state. -/
def spbm_read (mem : Nat → Nat) (t : SensorType) (a : HwmonAttr)
    (ch : Int) : ReadResult :=
  (spbm_read_full (mkState 0) mem t a ch).1

/-- `spbm_read_string` (src/spbm.c lines 158–170), state-passing form.
The source checks only the type and the bounds — the attribute argument is
ignored — and performs no register read and no store. -/
def spbm_read_string_full (s : DriverState) (t : SensorType) (_a : HwmonAttr)
    (ch : Int) : StringResult × DriverState × List Nat :=
  if t = SensorType.power ∧ chInBounds ch s.pwr.length = true then
    (StringResult.ok (s.pwr.getD (chIdx ch) noChan).label, s, [])
  else if t = SensorType.energy ∧ chInBounds ch s.nrg.length = true then
    (StringResult.ok (s.nrg.getD (chIdx ch) noChan).label, s, [])
  else
    (StringResult.eopnotsupp, s, [])

/-- `spbm_read_string` applied at the canonical post-probe state. -/
def spbm_read_string (t : SensorType) (a : HwmonAttr) (ch : Int) :
    StringResult :=
  (spbm_read_string_full (mkState 0) t a ch).1

/-! ## Resource location (the `_CRS` walk in `spbm_add`) -/

/-- `resource_type(re->res)`: the driver tests for `IORESOURCE_MEM`;
`io` and `other n` cover every non-memory resource type. -/
inductive ResType where
  | mem
  | io
  | other (n : Nat)
deriving DecidableEq, Repr

/-- One entry of the device's `_CRS` resource list: its type and the
physical start address `re->res->start`. -/
structure Resource where
  rtype : ResType
  start : Nat
deriving DecidableEq, Repr

/-- The `list_for_each_entry` loop of `spbm_add` (src/spbm.c lines
232–240): walk the resource list with counter `idx` (counting only
memory-type resources), and on the memory resource with `idx ==
SPBM_RES_IDX` take its start address; `phys` stays `0` when the loop
finds none. -/
def findSpbmPhys : List Resource → Nat → Nat
  | [], _ => 0
  | r :: rs, idx =>
    if r.rtype = ResType.mem then
      if idx = SPBM_RES_IDX then r.start else findSpbmPhys rs (idx + 1)
    else
      findSpbmPhys rs idx

/-- Outcome of the locating step: a physical base, or `-ENODEV`
(`"SPBM memory resource not found in _CRS"`). -/
inductive LocateResult where
  | found (phys : Nat)
  | enodev
deriving DecidableEq, Repr

/-- The locating step of `spbm_add` (src/spbm.c lines 227–246): run the
loop from `idx = 0, phys = 0`, then `if (!phys) return -ENODEV`. -/
def spbm_locate (resList : List Resource) : LocateResult :=
  let phys := findSpbmPhys resList 0
  if phys = 0 then LocateResult.enodev else LocateResult.found phys

/-- The memory-type resources of a list, in order — the sequence the
spec's ordinal selection rule ranges over. -/
def memResources (resList : List Resource) : List Resource :=
  resList.filter fun r => decide (r.rtype = ResType.mem)

/-! ## Liveness check and registration (tail of `spbm_add`) -/

/-- Outcome of the probe tail: whether the advisory warning was printed
and whether control reached the hwmon registration call. -/
structure ProbeTail where
  warned : Bool
  reachedRegistration : Bool
deriving DecidableEq, Repr

/-- The sanity-check tail of `spbm_add` (src/spbm.c lines 252–265): read
`TE_SYS_TOTAL`; warn when the raw value is `0` or `0xFFFFFFFF` (info
print otherwise); then unconditionally call
`devm_hwmon_device_register_with_info`. -/
def spbm_probe_tail (mem : Nat → Nat) : ProbeTail :=
  let test := ioread32 mem TE_SYS_TOTAL
  { warned := decide (test = 0 ∨ test = 0xFFFFFFFF)
  , reachedRegistration := true }

/-! ## The section-6 register layout, for the round-trip claim -/

/-- Modelled from the spec: the §6 power register layout
(`offset → label` pairs), transcribed in the spec's listing order. -/
def spec6_power : List (Nat × String) :=
  [ (0x300, "sys_total"), (0x304, "soc_pkg"), (0x308, "cpu_gpu")
  , (0x30C, "cpu_p"), (0x310, "cpu_e"), (0x314, "vcore")
  , (0x318, "vddq"), (0x31C, "dc_input"), (0x324, "gpu_out")
  , (0x320, "gpc_out"), (0x32C, "gpu_in"), (0x328, "gpc_in")
  , (0x330, "sys_in"), (0x338, "prereg_in"), (0x334, "dla_in")
  , (0x33C, "dla_out"), (0x160, "pl1"), (0x164, "pl2")
  , (0x170, "syspl1"), (0x600, "budget_cpu"), (0x604, "budget_gpu")
  , (0x680, "budget_cpu_e"), (0x684, "budget_cpu_p") ]

/-- Modelled from the spec: the §6 energy register layout. -/
def spec6_energy : List (Nat × String) :=
  [ (0x344, "pkg"), (0x350, "cpu_e"), (0x35C, "cpu_p")
  , (0x368, "gpc"), (0x374, "gpm") ]

/-- Number of table entries carrying a given offset. -/
def countOffset (l : List spbm_chan) (o : Nat) : Nat :=
  (l.filter fun c => decide (c.offset = o)).length

/-! ## Helper lemmas -/

lemma chInBounds_iff_lt (ch : Int) (n : Nat) (h1 : -(2 ^ 31) ≤ ch)
    (h2 : ch < 2 ^ 31) (hn : n ≤ 2 ^ 31) :
    chInBounds ch n = true ↔ 0 ≤ ch ∧ ch < (n : Int) := by
  simp only [chInBounds, SIZE_T_MOD, decide_eq_true_eq]
  omega

lemma chInBounds_natCast (i n : Nat) (hi : i < 2 ^ 64) :
    chInBounds (i : Int) n = true ↔ i < n := by
  simp only [chInBounds, SIZE_T_MOD, decide_eq_true_eq]
  omega

lemma chIdx_natCast (i : Nat) (hi : i < 2 ^ 64) : chIdx (i : Int) = i := by
  simp only [chIdx, SIZE_T_MOD]
  omega

lemma chInBounds_neg (ch : Int) (n : Nat) (h1 : -(2 ^ 31) ≤ ch)
    (h2 : ch < 0) (hn : n ≤ 2 ^ 31) : chInBounds ch n = false := by
  simp only [chInBounds, SIZE_T_MOD, decide_eq_false_iff_not]
  omega

lemma getD_mem_of_chInBounds (l : List spbm_chan) (ch : Int)
    (h : chInBounds ch l.length = true) : l.getD (chIdx ch) noChan ∈ l := by
  have hlt : chIdx ch < l.length := by
    simpa [chInBounds, chIdx] using h
  rw [List.getD_eq_getElem l noChan hlt]
  exact List.getElem_mem hlt

/-! ## Claim theorems -/

/-- C3: for every raw firmware value `v` in `[0, 2^32-1]`, the unit
converters compute exactly `v * 1000` — no truncation, rounding, or
clamping — and the result lies within the signed 64-bit (`long`) output
range. -/
theorem converters_exact (v : Nat) (hv : v < 2 ^ 32) :
    power_uW v = (v : Int) * 1000 ∧ energy_uJ v = (v : Int) * 1000 ∧
    LONG_MIN ≤ power_uW v ∧ power_uW v ≤ LONG_MAX ∧
    LONG_MIN ≤ energy_uJ v ∧ energy_uJ v ≤ LONG_MAX := by
  refine ⟨rfl, rfl, ?_, ?_, ?_, ?_⟩ <;>
    simp only [power_uW, energy_uJ, LONG_MIN, LONG_MAX] <;> omega

/-- Witness for `converters_exact`, at the largest 32-bit raw value. -/
theorem converters_exact_witness :
    power_uW 4294967295 = 4294967295000 ∧ power_uW 4294967295 ≤ LONG_MAX := by
  have h := converters_exact 4294967295 (by decide)
  exact ⟨h.1.trans (by decide), h.2.2.2.1⟩

/-- C5: the liveness check never fails the probe — for every raw value
read at `TE_SYS_TOTAL`, control reaches the hwmon registration call — and
the "telemetry may be inactive" warning is emitted iff the raw value is
`0` or `0xFFFFFFFF`; raw `12345` registers with no warning. -/
theorem liveness_advisory (mem : Nat → Nat) :
    (spbm_probe_tail mem).reachedRegistration = true ∧
    ((spbm_probe_tail mem).warned = true ↔
      ioread32 mem TE_SYS_TOTAL = 0 ∨ ioread32 mem TE_SYS_TOTAL = 0xFFFFFFFF) ∧
    spbm_probe_tail (fun _ => 12345) = ⟨false, true⟩ := by
  refine ⟨rfl, ?_, by decide⟩
  simp [spbm_probe_tail]

/-- C6: every offset in the two channel tables satisfies
`offset + 4 ≤ SPBM_SIZE`, and consequently every register read a value
query performs through the tables lies within the mapped region — the
out-of-bounds condition is unreachable for table-dispatched queries. -/
theorem offsets_within_region :
    (∀ c, (c ∈ pwr_chans ∨ c ∈ nrg_chans) → c.offset + 4 ≤ SPBM_SIZE) ∧
    (∀ (base : Nat) (mem : Nat → Nat) (t : SensorType) (a : HwmonAttr)
      (ch : Int), ∀ o ∈ (spbm_read_full (mkState base) mem t a ch).2.2,
        o + 4 ≤ SPBM_SIZE) := by
  have H : ∀ x ∈ pwr_chans ++ nrg_chans, x.offset + 4 ≤ SPBM_SIZE := by decide
  have H1 : ∀ c, (c ∈ pwr_chans ∨ c ∈ nrg_chans) → c.offset + 4 ≤ SPBM_SIZE :=
    fun c hc => H c (List.mem_append.mpr hc)
  refine ⟨H1, ?_⟩
  intro base mem t a ch o ho
  unfold spbm_read_full at ho
  split_ifs at ho with hA hB
  · simp only [List.mem_singleton] at ho
    subst ho
    exact H1 _ (Or.inl (getD_mem_of_chInBounds _ _ hA.2.2))
  · simp only [List.mem_singleton] at ho
    subst ho
    exact H1 _ (Or.inr (getD_mem_of_chInBounds _ _ hB.2.2))
  · simp at ho

/-- Witness for `offsets_within_region`, at the `sys_total` entry and at a
concrete successful power query whose read log is `[0x300]`. -/
theorem offsets_within_region_witness :
    (⟨0x300, "sys_total"⟩ : spbm_chan).offset + 4 ≤ SPBM_SIZE ∧
    0x300 + 4 ≤ SPBM_SIZE := by
  refine ⟨offsets_within_region.1 ⟨0x300, "sys_total"⟩ (Or.inl (by decide)), ?_⟩
  exact offsets_within_region.2 0 (fun _ => 0) SensorType.power
    HwmonAttr.power_input 0 0x300 (by decide)

/-- C7: every §6 layout entry appears in exactly one of the two category
tables, carrying the §6 label, and no offset is duplicated within a
category; the tables have 23 and 5 entries. -/
theorem layout_round_trip :
    (∀ p ∈ spec6_power, countOffset pwr_chans p.1 = 1 ∧
      countOffset nrg_chans p.1 = 0 ∧ (⟨p.1, p.2⟩ : spbm_chan) ∈ pwr_chans) ∧
    (∀ p ∈ spec6_energy, countOffset nrg_chans p.1 = 1 ∧
      countOffset pwr_chans p.1 = 0 ∧ (⟨p.1, p.2⟩ : spbm_chan) ∈ nrg_chans) ∧
    (pwr_chans.map spbm_chan.offset).Nodup ∧
    (nrg_chans.map spbm_chan.offset).Nodup ∧
    pwr_chans.length = 23 ∧ nrg_chans.length = 5 ∧
    spec6_power.length = 23 ∧ spec6_energy.length = 5 := by
  decide

/-- Witness for `layout_round_trip`, at the first entry of each §6 list. -/
theorem layout_round_trip_witness :
    countOffset pwr_chans 0x300 = 1 ∧ (⟨0x344, "pkg"⟩ : spbm_chan) ∈ nrg_chans := by
  exact ⟨(layout_round_trip.1 (0x300, "sys_total") (by decide)).1,
    (layout_round_trip.2.1 (0x344, "pkg") (by decide)).2.2⟩

/-- C1: for each category in `{power, energy}` and each index within that
category's table bounds, a value query returns the 32-bit raw word at the
table's offset converted by the matching unit converter (`raw * 1000`);
an out-of-range index or an unrecognized category yields `-EOPNOTSUPP`. -/
theorem spbm_read_value_spec (mem : Nat → Nat) :
    (∀ i : Nat, i < N_PWR →
      spbm_read mem SensorType.power HwmonAttr.power_input (i : Int) =
        ReadResult.ok (power_uW (ioread32 mem (pwr_chans.getD i noChan).offset))) ∧
    (∀ i : Nat, i < N_NRG →
      spbm_read mem SensorType.energy HwmonAttr.energy_input (i : Int) =
        ReadResult.ok (energy_uJ (ioread32 mem (nrg_chans.getD i noChan).offset))) ∧
    (∀ ch : Int, chInBounds ch N_PWR = false →
      spbm_read mem SensorType.power HwmonAttr.power_input ch =
        ReadResult.eopnotsupp) ∧
    (∀ ch : Int, chInBounds ch N_NRG = false →
      spbm_read mem SensorType.energy HwmonAttr.energy_input ch =
        ReadResult.eopnotsupp) ∧
    (∀ (n : Nat) (a : HwmonAttr) (ch : Int),
      spbm_read mem (SensorType.other n) a ch = ReadResult.eopnotsupp) := by
  refine ⟨?_, ?_, ?_, ?_, ?_⟩
  · intro i hi
    have h64 : i < 2 ^ 64 := lt_of_lt_of_le hi (by decide)
    have hb : chInBounds (i : Int) pwr_chans.length = true :=
      (chInBounds_natCast i pwr_chans.length h64).mpr hi
    simp [spbm_read, spbm_read_full, mkState, hb, chIdx_natCast i h64]
  · intro i hi
    have h64 : i < 2 ^ 64 := lt_of_lt_of_le hi (by decide)
    have hb : chInBounds (i : Int) nrg_chans.length = true :=
      (chInBounds_natCast i nrg_chans.length h64).mpr hi
    simp [spbm_read, spbm_read_full, mkState, hb, chIdx_natCast i h64]
  · intro ch hch
    have hb : chInBounds ch pwr_chans.length = false := hch
    simp [spbm_read, spbm_read_full, mkState, hb]
  · intro ch hch
    have hb : chInBounds ch nrg_chans.length = false := hch
    simp [spbm_read, spbm_read_full, mkState, hb]
  · intro n a ch
    simp [spbm_read, spbm_read_full, mkState]

/-- Witness for `spbm_read_value_spec`: raw `45000` at the `soc_pkg`
offset (power index 1) yields `45000000` microwatts, and index 23 is
rejected. -/
theorem spbm_read_value_spec_witness :
    spbm_read (fun _ => 45000) SensorType.power HwmonAttr.power_input
      ((1 : Nat) : Int) = ReadResult.ok 45000000 ∧
    spbm_read (fun _ => 45000) SensorType.power HwmonAttr.power_input 23 =
      ReadResult.eopnotsupp ∧
    spbm_read (fun _ => 45000) (SensorType.other 0) HwmonAttr.power_input 0 =
      ReadResult.eopnotsupp := by
  refine ⟨?_, ?_, ?_⟩
  · rw [(spbm_read_value_spec (fun _ => 45000)).1 1 (by decide)]
    decide
  · exact (spbm_read_value_spec (fun _ => 45000)).2.2.1 23 (by decide)
  · exact (spbm_read_value_spec (fun _ => 45000)).2.2.2.2 0 HwmonAttr.power_input 0

/-- C4: for every `int`-range index, `visible` returns the read-only mode
`0444` exactly when the index is within the corresponding table's bounds
(23 power entries, 5 energy entries) and the attribute is the value or
label attribute; in every other case it returns `0` (not exposed), and it
never returns any other (in particular any writable) mode. -/
theorem spbm_visible_spec (t : SensorType) (a : HwmonAttr) (ch : Int)
    (h1 : -(2 ^ 31) ≤ ch) (h2 : ch < 2 ^ 31) :
    (spbm_visible t a ch = 0o444 ↔
      ((t = SensorType.power ∧ 0 ≤ ch ∧ ch < 23 ∧
        (a = HwmonAttr.power_input ∨ a = HwmonAttr.power_label)) ∨
       (t = SensorType.energy ∧ 0 ≤ ch ∧ ch < 5 ∧
        (a = HwmonAttr.energy_input ∨ a = HwmonAttr.energy_label)))) ∧
    (spbm_visible t a ch = 0o444 ∨ spbm_visible t a ch = 0) := by
  have hp : chInBounds ch pwr_chans.length = true ↔ 0 ≤ ch ∧ ch < 23 := by
    simpa using chInBounds_iff_lt ch 23 h1 h2 (by norm_num)
  have hn : chInBounds ch nrg_chans.length = true ↔ 0 ≤ ch ∧ ch < 5 := by
    simpa using chInBounds_iff_lt ch 5 h1 h2 (by norm_num)
  simp only [spbm_visible, spbm_visible_full, mkState]
  split_ifs with hA hB
  · simp only [true_iff, eq_self_iff_true]
    constructor
    · left
      exact ⟨hA.1, (hp.mp hA.2.1).1, (hp.mp hA.2.1).2, hA.2.2⟩
    · trivial
  · simp only [true_iff, eq_self_iff_true]
    constructor
    · right
      exact ⟨hB.1, (hn.mp hB.2.1).1, (hn.mp hB.2.1).2, hB.2.2⟩
    · trivial
  · constructor
    · constructor
      · intro h; exact absurd h (by decide)
      · rintro (⟨ht, hc1, hc2, ha⟩ | ⟨ht, hc1, hc2, ha⟩)
        · exact absurd ⟨ht, hp.mpr ⟨hc1, hc2⟩, ha⟩ hA
        · exact absurd ⟨ht, hn.mpr ⟨hc1, hc2⟩, ha⟩ hB
    · right; rfl

/-- Witness for `spbm_visible_spec`: power index 0 with the value
attribute is read-only; power index 23 is not exposed. -/
theorem spbm_visible_spec_witness :
    spbm_visible SensorType.power HwmonAttr.power_input 0 = 0o444 ∧
    spbm_visible SensorType.power HwmonAttr.power_input 23 = 0 := by
  constructor
  · exact (spbm_visible_spec SensorType.power HwmonAttr.power_input 0
      (by decide) (by decide)).1.mpr (Or.inl ⟨rfl, by decide, by decide, Or.inl rfl⟩)
  · have h := (spbm_visible_spec SensorType.power HwmonAttr.power_input 23
      (by decide) (by decide))
    rcases h.2 with h444 | h0
    · exact absurd (h.1.mp h444) (by decide)
    · exact h0

/-- C8: for every category and index and any attribute value, `label`
returns the label stored in the corresponding table entry when the index
is within that category's table bounds, and `-EOPNOTSUPP` for an
out-of-range index or an unrecognized category. -/
theorem spbm_read_string_spec (a : HwmonAttr) :
    (∀ i : Nat, i < N_PWR →
      spbm_read_string SensorType.power a (i : Int) =
        StringResult.ok (pwr_chans.getD i noChan).label) ∧
    (∀ i : Nat, i < N_NRG →
      spbm_read_string SensorType.energy a (i : Int) =
        StringResult.ok (nrg_chans.getD i noChan).label) ∧
    (∀ ch : Int, chInBounds ch N_PWR = false →
      spbm_read_string SensorType.power a ch = StringResult.eopnotsupp) ∧
    (∀ ch : Int, chInBounds ch N_NRG = false →
      spbm_read_string SensorType.energy a ch = StringResult.eopnotsupp) ∧
    (∀ (n : Nat) (ch : Int),
      spbm_read_string (SensorType.other n) a ch = StringResult.eopnotsupp) := by
  refine ⟨?_, ?_, ?_, ?_, ?_⟩
  · intro i hi
    have h64 : i < 2 ^ 64 := lt_of_lt_of_le hi (by decide)
    have hb : chInBounds (i : Int) pwr_chans.length = true :=
      (chInBounds_natCast i pwr_chans.length h64).mpr hi
    simp [spbm_read_string, spbm_read_string_full, mkState, hb, chIdx_natCast i h64]
  · intro i hi
    have h64 : i < 2 ^ 64 := lt_of_lt_of_le hi (by decide)
    have hb : chInBounds (i : Int) nrg_chans.length = true :=
      (chInBounds_natCast i nrg_chans.length h64).mpr hi
    simp [spbm_read_string, spbm_read_string_full, mkState, hb, chIdx_natCast i h64]
  · intro ch hch
    have hb : chInBounds ch pwr_chans.length = false := hch
    simp [spbm_read_string, spbm_read_string_full, mkState, hb]
  · intro ch hch
    have hb : chInBounds ch nrg_chans.length = false := hch
    simp [spbm_read_string, spbm_read_string_full, mkState, hb]
  · intro n ch
    simp [spbm_read_string, spbm_read_string_full, mkState]

/-- Witness for `spbm_read_string_spec`: power index 0 is labelled
`sys_total` regardless of the attribute; energy index 5 is rejected. -/
theorem spbm_read_string_spec_witness :
    spbm_read_string SensorType.power (HwmonAttr.other 7) ((0 : Nat) : Int) =
      StringResult.ok "sys_total" ∧
    spbm_read_string SensorType.energy (HwmonAttr.other 7) 5 =
      StringResult.eopnotsupp := by
  constructor
  · rw [(spbm_read_string_spec (HwmonAttr.other 7)).1 0 (by decide)]
    decide
  · exact (spbm_read_string_spec (HwmonAttr.other 7)).2.2.2.1 5 (by decide)

/-- C9: no query operation mutates any driver-held state — each of the
three callbacks returns the state (mapping handle and both channel
tables) it was given — `visible` and `label` perform no register read,
and the only memory access a successful value query performs is the
single register read at the offset resolved from the table. -/
theorem queries_pure (s : DriverState) (mem : Nat → Nat) (t : SensorType)
    (a : HwmonAttr) (ch : Int) :
    (spbm_visible_full s t a ch).2.1 = s ∧
    (spbm_visible_full s t a ch).2.2 = [] ∧
    (spbm_read_full s mem t a ch).2.1 = s ∧
    (spbm_read_string_full s t a ch).2.1 = s ∧
    (spbm_read_string_full s t a ch).2.2 = [] ∧
    (spbm_read_full s mem t a ch).2.2.length ≤ 1 ∧
    ((spbm_read_full s mem t a ch).1 = ReadResult.eopnotsupp →
      (spbm_read_full s mem t a ch).2.2 = []) ∧
    (t = SensorType.power → a = HwmonAttr.power_input →
      chInBounds ch s.pwr.length = true →
      (spbm_read_full s mem t a ch).2.2 =
        [(s.pwr.getD (chIdx ch) noChan).offset]) ∧
    (t = SensorType.energy → a = HwmonAttr.energy_input →
      chInBounds ch s.nrg.length = true →
      (spbm_read_full s mem t a ch).2.2 =
        [(s.nrg.getD (chIdx ch) noChan).offset]) := by
  refine ⟨?_, ?_, ?_, ?_, ?_, ?_, ?_, ?_, ?_⟩
  · unfold spbm_visible_full; split_ifs <;> rfl
  · unfold spbm_visible_full; split_ifs <;> rfl
  · unfold spbm_read_full; split_ifs <;> rfl
  · unfold spbm_read_string_full; split_ifs <;> rfl
  · unfold spbm_read_string_full; split_ifs <;> rfl
  · unfold spbm_read_full; split_ifs <;> simp
  · unfold spbm_read_full; split_ifs <;> simp
  · intro ht ha hb
    simp [spbm_read_full, ht, ha, hb]
  · intro ht ha hb
    have hpw : ¬(t = SensorType.power) := by simp [ht]
    simp [spbm_read_full, ht, ha, hb, hpw]

/-- Witness for `queries_pure`, at the canonical state, a constant
region, and a successful power value query at index 0 (read log
`[0x300]`). -/
theorem queries_pure_witness :
    (spbm_read_full (mkState 7) (fun _ => 4) SensorType.power
      HwmonAttr.power_input 0).2.1 = mkState 7 ∧
    (spbm_read_full (mkState 7) (fun _ => 4) SensorType.power
      HwmonAttr.power_input 0).2.2 = [0x300] := by
  have h := queries_pure (mkState 7) (fun _ => 4) SensorType.power
    HwmonAttr.power_input 0
  refine ⟨h.2.2.1, ?_⟩
  rw [h.2.2.2.2.2.2.2.1 rfl rfl (by decide)]
  decide

/-- C10: every negative channel index fails the bounds test — the signed
argument is converted to the unsigned `size_t` width by the comparison,
landing far above either table size — so `visible` reports not-exposed
and both `read` and `label` return `-EOPNOTSUPP`, for every sensor type
and attribute. -/
theorem negative_index_rejected (ch : Int) (h1 : -(2 ^ 31) ≤ ch)
    (h2 : ch < 0) :
    (∀ (t : SensorType) (a : HwmonAttr), spbm_visible t a ch = 0) ∧
    (∀ (mem : Nat → Nat) (t : SensorType) (a : HwmonAttr),
      spbm_read mem t a ch = ReadResult.eopnotsupp) ∧
    (∀ (t : SensorType) (a : HwmonAttr),
      spbm_read_string t a ch = StringResult.eopnotsupp) := by
  have hp : chInBounds ch pwr_chans.length = false :=
    chInBounds_neg ch pwr_chans.length h1 h2 (by decide)
  have hn : chInBounds ch nrg_chans.length = false :=
    chInBounds_neg ch nrg_chans.length h1 h2 (by decide)
  refine ⟨?_, ?_, ?_⟩
  · intro t a
    cases t <;> simp [spbm_visible, spbm_visible_full, mkState, hp, hn]
  · intro mem t a
    cases t <;> simp [spbm_read, spbm_read_full, mkState, hp, hn]
  · intro t a
    cases t <;> simp [spbm_read_string, spbm_read_string_full, mkState, hp, hn]

/-- Witness for `negative_index_rejected`, at channel index `-1`. -/
theorem negative_index_rejected_witness :
    spbm_visible SensorType.power HwmonAttr.power_input (-1) = 0 ∧
    spbm_read (fun _ => 9) SensorType.power HwmonAttr.power_input (-1) =
      ReadResult.eopnotsupp ∧
    spbm_read_string SensorType.power HwmonAttr.power_input (-1) =
      StringResult.eopnotsupp := by
  have h := negative_index_rejected (-1) (by decide) (by decide)
  exact ⟨h.1 SensorType.power HwmonAttr.power_input,
    h.2.1 (fun _ => 9) SensorType.power HwmonAttr.power_input,
    h.2.2 SensorType.power HwmonAttr.power_input⟩

/-- The `_CRS` loop computes the start of the ordinal-`SPBM_RES_IDX`
memory-type resource (`0` when there are not enough memory resources),
skipping non-memory resources without consuming an ordinal. -/
lemma findSpbmPhys_eq (resList : List Resource) (idx : Nat)
    (h : idx ≤ SPBM_RES_IDX) :
    findSpbmPhys resList idx =
      match (memResources resList)[SPBM_RES_IDX - idx]? with
      | some r => r.start
      | none => 0 := by
  induction resList generalizing idx with
  | nil => simp [findSpbmPhys, memResources]
  | cons r rs ih =>
    by_cases hm : r.rtype = ResType.mem
    · by_cases hi : idx = SPBM_RES_IDX
      · subst hi
        simp [findSpbmPhys, memResources, hm]
      · have hidx : idx = 0 := by
          simp only [SPBM_RES_IDX] at h hi; omega
        subst hidx
        have h1 : findSpbmPhys rs 1 =
            match (memResources rs)[SPBM_RES_IDX - 1]? with
            | some r => r.start
            | none => 0 := ih 1 (by simp [SPBM_RES_IDX])
        simp only [findSpbmPhys, hm, if_true, SPBM_RES_IDX] at h1 ⊢
        rw [if_neg (by omega), h1]
        simp [memResources, hm]
    · have h1 := ih idx h
      simp only [findSpbmPhys, hm, if_false] at h1 ⊢
      rw [h1]
      simp [memResources, hm]

/-- C2 counterexample: a resource list with two memory-type resources
whose ordinal-1 memory resource has physical base `0`.  The claim says
the locator must return that base; the source's loop reports its result
through `phys`, initialized to `0`, and `spbm_add` treats `phys == 0` as
"not found", so the locator returns `-ENODEV` here instead. -/
theorem locator_zero_base_counterexample :
    (memResources [⟨ResType.mem, 5⟩, ⟨ResType.mem, 0⟩]).length = 2 ∧
    (memResources [⟨ResType.mem, 5⟩, ⟨ResType.mem, 0⟩])[1]? =
      some ⟨ResType.mem, 0⟩ ∧
    spbm_locate [⟨ResType.mem, 5⟩, ⟨ResType.mem, 0⟩] =
      LocateResult.enodev := by
  decide

/-- C2 amended: for every ordered resource list, the locator returns the
physical base of the memory-type resource at zero-indexed ordinal 1 —
skipping non-memory resources without consuming an ordinal — provided
that base is nonzero; it fails with `-ENODEV` when fewer than two
memory-type resources exist, and also when the selected base is zero. -/
theorem locator_spec (resList : List Resource) :
    (∀ r : Resource, (memResources resList)[SPBM_RES_IDX]? = some r →
      r.start ≠ 0 → spbm_locate resList = LocateResult.found r.start) ∧
    ((memResources resList).length < 2 →
      spbm_locate resList = LocateResult.enodev) ∧
    (∀ r : Resource, (memResources resList)[SPBM_RES_IDX]? = some r →
      r.start = 0 → spbm_locate resList = LocateResult.enodev) := by
  have hkey := findSpbmPhys_eq resList 0 (by simp [SPBM_RES_IDX])
  simp only [Nat.sub_zero] at hkey
  refine ⟨?_, ?_, ?_⟩
  · intro r hr hstart
    rw [hr] at hkey
    simp only [spbm_locate, hkey]
    rw [if_neg hstart]
  · intro hlen
    have hnone : (memResources resList)[SPBM_RES_IDX]? = none := by
      apply List.getElem?_eq_none
      simp only [SPBM_RES_IDX]; omega
    rw [hnone] at hkey
    simp [spbm_locate, hkey]
  · intro r hr hstart
    rw [hr] at hkey
    simp [spbm_locate, hkey, hstart]

/-- Witness for `locator_spec`: the spec's example list
`[mem@A, io@B, mem@C, mem@D]` selects `mem@C`, ignoring the io resource;
a single-memory-resource list is rejected. -/
theorem locator_spec_witness :
    spbm_locate [⟨ResType.mem, 0x1000⟩, ⟨ResType.io, 0x2000⟩,
      ⟨ResType.mem, 0x3000⟩, ⟨ResType.mem, 0x4000⟩] =
      LocateResult.found 0x3000 ∧
    spbm_locate [⟨ResType.mem, 0x1000⟩] = LocateResult.enodev := by
  constructor
  · exact (locator_spec _).1 ⟨ResType.mem, 0x3000⟩ (by decide) (by decide)
  · exact (locator_spec _).2.1 (by decide)

end Spbm
